import Mathlib

/-!
Shallow embedding of the visionaray math core (axis-aligned bounding boxes,
triangles, intersector dispatch) used to settle the specification claims.

The C++ code is generic over a numeric lane type `T`; here the exact field ℚ
stands in for the floating-point scalar type wherever the operations are
plain arithmetic and comparisons, and the order completion
`WithBot (WithTop ℚ)` stands in for the type where `numeric_limits` sentinels
are involved.  Definitions mirror `include/visionaray/math/detail/aabb.inl`,
`triangle.inl` and `intersector.h`.
-/

namespace Visionaray

/-- `vector<3, T>`: a 3-component vector with fields x, y, z. -/
structure vec3 (α : Type) where
  x : α
  y : α
  z : α
deriving DecidableEq, Repr

/-- Modelled from the spec: the componentwise `min` on `vector<3, T>`
(`math/vector.inl` is not part of the provided sources; §4.2 of the spec
describes `insert` as a running componentwise min/max). -/
def vmin {α : Type} [LinearOrder α] (a b : vec3 α) : vec3 α :=
  ⟨min a.x b.x, min a.y b.y, min a.z b.z⟩

/-- Modelled from the spec: the componentwise `max` on `vector<3, T>`. -/
def vmax {α : Type} [LinearOrder α] (a b : vec3 α) : vec3 α :=
  ⟨max a.x b.x, max a.y b.y, max a.z b.z⟩

/-- `basic_aabb<T>`: an axis-aligned box given by its `min` and `max` corners
(aabb.inl, constructor at lines 17-23). -/
structure basic_aabb (α : Type) where
  min : vec3 α
  max : vec3 α
deriving DecidableEq, Repr

/-- `basic_aabb<T>::valid()` (aabb.inl:96-101): `min <= max` componentwise. -/
def valid {α : Type} [LinearOrder α] (b : basic_aabb α) : Prop :=
  b.min.x ≤ b.max.x ∧ b.min.y ≤ b.max.y ∧ b.min.z ≤ b.max.z

instance {α : Type} [LinearOrder α] (b : basic_aabb α) : Decidable ( valid b) := by
  unfold valid; infer_instance

/-- `basic_aabb<T>::invalid()` (aabb.inl:89-94): `min > max` on some axis. -/
def invalid {α : Type} [LinearOrder α] (b : basic_aabb α) : Prop :=
  b.min.x > b.max.x ∨ b.min.y > b.max.y ∨ b.min.z > b.max.z

instance {α : Type} [LinearOrder α] (b : basic_aabb α) : Decidable ( invalid b) := by
  unfold invalid; infer_instance

/-- `basic_aabb<T>::empty()` (aabb.inl:103-108): `min >= max` on some axis. -/
def empty {α : Type} [LinearOrder α] (b : basic_aabb α) : Prop :=
  b.min.x ≥ b.max.x ∨ b.min.y ≥ b.max.y ∨ b.min.z ≥ b.max.z

instance {α : Type} [LinearOrder α] (b : basic_aabb α) : Decidable ( empty b) := by
  unfold empty; infer_instance

/-- `basic_aabb<T>::contains(vector<3,T>)` (aabb.inl:110-117). -/
def contains {α : Type} [LinearOrder α] (b : basic_aabb α) (v : vec3 α) : Prop :=
  v.x ≥ b.min.x ∧ v.x ≤ b.max.x ∧
  v.y ≥ b.min.y ∧ v.y ≤ b.max.y ∧
  v.z ≥ b.min.z ∧ v.z ≤ b.max.z

instance {α : Type} [LinearOrder α] (b : basic_aabb α) (v : vec3 α) :
    Decidable ( contains b v) := by
  unfold contains; infer_instance

/-- `basic_aabb<T>::contains(basic_aabb<T>)` (aabb.inl:119-124): a box is
contained iff both its corners are. -/
def contains_aabb {α : Type} [LinearOrder α] (b c : basic_aabb α) : Prop :=
  contains b c.min ∧ contains b c.max

instance {α : Type} [LinearOrder α] (b c : basic_aabb α) :
    Decidable ( contains_aabb b c) := by
  unfold contains_aabb; infer_instance

/-- `basic_aabb<T>::insert(vec_type)` (aabb.inl:126-132), as a function on the
box value (the C++ member mutates in place). -/
def insert {α : Type} [LinearOrder α] (b : basic_aabb α) (v : vec3 α) : basic_aabb α :=
  ⟨vmin b.min v, vmax b.max v⟩

/-- `basic_aabb<T>::insert(basic_aabb)` (aabb.inl:134-140). -/
def insert_aabb {α : Type} [LinearOrder α] (b v : basic_aabb α) : basic_aabb α :=
  ⟨vmin b.min v.min, vmax b.max v.max⟩

/-- Free function `combine(a, b)` (aabb.inl:168-173): the union-style hull. -/
def combine {α : Type} [LinearOrder α] (a b : basic_aabb α) : basic_aabb α :=
  ⟨vmin a.min b.min, vmax a.max b.max⟩

/-- Free function `intersect(a, b)` (aabb.inl:182-187). -/
def intersect {α : Type} [LinearOrder α] (a b : basic_aabb α) : basic_aabb α :=
  ⟨vmax a.min b.min, vmin a.max b.max⟩

/-- `basic_aabb<T>::size()` (aabb.inl:61-66): `max - min`. -/
def size (b : basic_aabb ℚ) : vec3 ℚ :=
  ⟨b.max.x - b.min.x, b.max.y - b.min.y, b.max.z - b.min.z⟩

/-- `basic_aabb<T>::safe_size()` (aabb.inl:68-79): `max - min` with each
component clamped to be at least 0. -/
def safe_size (b : basic_aabb ℚ) : vec3 ℚ :=
  ⟨max 0 (b.max.x - b.min.x), max 0 (b.max.y - b.min.y), max 0 (b.max.z - b.min.z)⟩

/-- Free function `volume(box)` (aabb.inl:219-225): product of the size
components. -/
def volume (b : basic_aabb ℚ) : ℚ :=
  ( size b).x * ( size b).y * ( size b).z

/-- Free function `overlap_ratio_union(lhs, rhs)` (aabb.inl:227-240). -/
def overlap_ratio_union (lhs rhs : basic_aabb ℚ) : ℚ :=
  let I := intersect lhs rhs
  if empty I then 0
  else volume I / volume (combine lhs rhs)

/-- Free function `overlap_ratio_min(lhs, rhs)` (aabb.inl:242-261). -/
def overlap_ratio_min (lhs rhs : basic_aabb ℚ) : ℚ :=
  let I := intersect lhs rhs
  if empty lhs ∨ empty rhs then 0
  else if empty I then 0
  else volume I / min ( volume lhs) ( volume rhs)

/-- Free function `overlap_ratio(lhs, rhs)` (aabb.inl:263-269): delegates to
`overlap_ratio_min` (the `overlap_ratio_union` call is commented out). -/
def overlap_ratio (lhs rhs : basic_aabb ℚ) : ℚ :=
  overlap_ratio_min lhs rhs

/-- The scalar type used where `numeric_limits` sentinels occur: ℚ completed
with a greatest and a least element. -/
abbrev Qe : Type := WithBot (WithTop ℚ)

/-- Modelled from the spec: `numeric_limits<T>::max()` (`math/limits.h` is not
part of the provided sources; §3 of the spec describes the invalid state as
`min = +∞` per axis, so the sentinel is the greatest element). -/
def numeric_limits_max : Qe := ⊤

/-- Modelled from the spec: `numeric_limits<T>::lowest()` (`math/limits.h` is
not part of the provided sources; §3 of the spec describes the invalid state
as `max = −∞` per axis, so the sentinel is the least element). -/
def numeric_limits_lowest : Qe := ⊥

/-- `basic_aabb<T>::invalidate()` (aabb.inl:81-87), as the box value it
produces: `min = vec_type(numeric_limits<T>::max())`,
`max = vec_type(numeric_limits<T>::lowest())`; the previous state is
discarded. -/
def invalidate (_ : basic_aabb Qe) : basic_aabb Qe :=
  ⟨⟨numeric_limits_max, numeric_limits_max, numeric_limits_max⟩,
   ⟨numeric_limits_lowest, numeric_limits_lowest, numeric_limits_lowest⟩⟩

/-- `cartesian_axis<3>` (`math/axis.h`): the three coordinate axes. -/
inductive cartesian_axis : Type
  | X : cartesian_axis
  | Y : cartesian_axis
  | Z : cartesian_axis
deriving DecidableEq, Repr

/-- Reading a `vector<3, T>` component by axis index (`v[axis]`). -/
def geta {α : Type} (v : vec3 α) : cartesian_axis → α
  | cartesian_axis.X => v.x
  | cartesian_axis.Y => v.y
  | cartesian_axis.Z => v.z

/-- Writing a `vector<3, T>` component by axis index (`v[axis] = val`). -/
def seta {α : Type} (v : vec3 α) (axis : cartesian_axis) (val : α) : vec3 α :=
  match axis with
  | cartesian_axis.X => ⟨val, v.y, v.z⟩
  | cartesian_axis.Y => ⟨v.x, val, v.z⟩
  | cartesian_axis.Z => ⟨v.x, v.y, val⟩

/-- Free function `split(box, axis, splitpos)` (aabb.inl:271-285): both halves
start from the original corners, then `max1[axis] = splitpos` and
`min2[axis] = splitpos`. -/
def split (box : basic_aabb ℚ) (axis : cartesian_axis) (splitpos : ℚ) :
    basic_aabb ℚ × basic_aabb ℚ :=
  let min1 := box.min
  let min2 := seta box.min axis splitpos
  let max1 := seta box.max axis splitpos
  let max2 := box.max
  (⟨min1, max1⟩, ⟨min2, max2⟩)

/-- `basic_triangle<Dim, T, P>` (`math/triangle.h`): a vertex `v1` and the two
edge vectors `e1`, `e2`. -/
structure basic_triangle where
  v1 : vec3 ℚ
  e1 : vec3 ℚ
  e2 : vec3 ℚ
deriving DecidableEq, Repr

/-- Modelled from the spec: the `cross` product on `vector<3, T>`
(`math/vector.inl` is not part of the provided sources; the standard
componentwise formula). -/
def cross (a b : vec3 ℚ) : vec3 ℚ :=
  ⟨a.y * b.z - a.z * b.y, a.z * b.x - a.x * b.z, a.x * b.y - a.y * b.x⟩

/-- Modelled from the spec: `length(v) = sqrt(dot(v, v))` on `vector<3, T>`
(`math/vector.inl` is not part of the provided sources), with the exact real
square root standing in for the floating-point one. -/
noncomputable def length (v : vec3 ℚ) : ℝ :=
  Real.sqrt ((v.x * v.x + v.y * v.y + v.z * v.z : ℚ) : ℝ)

/-- Free function `area(t)` (triangle.inl:32-37): `0.5 * length(cross(e1, e2))`. -/
noncomputable def area (t : basic_triangle) : ℝ :=
  (1 / 2 : ℝ) * length (cross t.e1 t.e2)

/-- A primitive as seen by the intersector dispatch: either a leaf primitive
or a traversable hierarchy (BVH).  The tag plays the role of the
`is_bvh<P>` capability trait from `bvh.h`. -/
inductive Prim (L B : Type) : Type
  | leaf : L → Prim L B
  | bvh : B → Prim L B

/-- Modelled from the spec: the environment of free `intersect` overloads that
C++ name lookup would find (`bvh.h` and the per-primitive `intersect`
functions are not part of the provided sources).  `intersect_prim` is the
free `intersect(ray, primitive)`; `intersect_bvh` is the free
`intersect(ray, bvh, intersector)` that receives the active intersector as a
continuation for recursive traversal. -/
structure IntersectOps (R L B A H : Type) : Type where
  intersect_prim : R → L → H
  intersect_bvh : R → B → (R → Prim L B → List A → Option H) → H

/-- `basic_intersector<Derived>::operator()` (intersector.h:21-37): the
non-BVH overload forwards to `intersect(ray, prim)` and drops the extra
arguments; the BVH overload calls `intersect(ray, prim, *this)`,
re-supplying the dispatcher itself as the continuation.  A fuel parameter
makes the self-referential recursion a total function; `none` is only
reached when the fuel runs out, which never happens on a finite-depth
hierarchy. -/
def basic_intersector {R L B A H : Type} (ops : IntersectOps R L B A H) :
    Nat → R → Prim L B → List A → Option H
  | _, ray, Prim.leaf p, _ => some (ops.intersect_prim ray p)
  | fuel + 1, ray, Prim.bvh b, _ =>
      some (ops.intersect_bvh ray b (fun r pr a => basic_intersector ops fuel r pr a))
  | 0, _, Prim.bvh _, _ => none

/-- The box A = [(0,0,0),(2,2,2)] of the spec's concrete scenario (§8). -/
def boxA : basic_aabb ℚ := ⟨⟨0, 0, 0⟩, ⟨2, 2, 2⟩⟩

/-- The box B = [(1,1,1),(3,3,3)] of the spec's concrete scenario (§8). -/
def boxB : basic_aabb ℚ := ⟨⟨1, 1, 1⟩, ⟨3, 3, 3⟩⟩

/-- The unit box [(0,0,0),(1,1,1)]. -/
def boxCa : basic_aabb ℚ := ⟨⟨0, 0, 0⟩, ⟨1, 1, 1⟩⟩

/-- A valid box disjoint from `boxCa`: [(5,5,5),(6,6,6)]. -/
def boxCb : basic_aabb ℚ := ⟨⟨5, 5, 5⟩, ⟨6, 6, 6⟩⟩

/-- The triangle with v1 = 0, e1 = (1,0,0), e2 = (0,1,0) from the spec's area
scenario (§8). -/
def tri0 : basic_triangle := ⟨⟨0, 0, 0⟩, ⟨1, 0, 0⟩, ⟨0, 1, 0⟩⟩

/-- On the completed order, `min` with the greatest element on the left is the
identity. -/
theorem Qe.min_top (x : Qe) : min ⊤ x = x := min_eq_right le_top

/-- On the completed order, `max` with the least element on the left is the
identity. -/
theorem Qe.max_bot (x : Qe) : max ⊥ x = x := max_eq_right bot_le

/-- A box that is not empty has strictly positive extent on every axis. -/
theorem size_pos_of_not_empty (b : basic_aabb ℚ) (h : ¬ empty b) :
    0 < ( size b).x ∧ 0 < ( size b).y ∧ 0 < ( size b).z := by
  unfold empty at h
  push_neg at h
  obtain ⟨h1, h2, h3⟩ := h
  exact ⟨sub_pos.mpr h1, sub_pos.mpr h2, sub_pos.mpr h3⟩

/-- A box that is not empty has strictly positive volume. -/
theorem volume_pos_of_not_empty (b : basic_aabb ℚ) (h : ¬ empty b) :
    0 < volume b := by
  obtain ⟨h1, h2, h3⟩ := size_pos_of_not_empty b h
  exact mul_pos (mul_pos h1 h2) h3

/-- The intersection's extent is componentwise at most the extent of each
argument. -/
theorem size_intersect_le (a b : basic_aabb ℚ) :
    ( size (intersect a b)).x ≤ ( size a).x ∧
    ( size (intersect a b)).y ≤ ( size a).y ∧
    ( size (intersect a b)).z ≤ ( size a).z ∧
    ( size (intersect a b)).x ≤ ( size b).x ∧
    ( size (intersect a b)).y ≤ ( size b).y ∧
    ( size (intersect a b)).z ≤ ( size b).z := by
  unfold size intersect vmin vmax
  refine ⟨?_, ?_, ?_, ?_, ?_, ?_⟩ <;>
    exact sub_le_sub (by simp) (by simp)

/-- If the intersection is not empty, its volume is at most the volume of
each argument. -/
theorem volume_intersect_le (a b : basic_aabb ℚ) (h : ¬ empty (intersect a b)) :
    volume (intersect a b) ≤ volume a ∧ volume (intersect a b) ≤ volume b := by
  obtain ⟨p1, p2, p3⟩ := size_pos_of_not_empty (intersect a b) h
  obtain ⟨la1, la2, la3, lb1, lb2, lb3⟩ := size_intersect_le a b
  unfold volume
  constructor
  · have hxy : ( size (intersect a b)).x * ( size (intersect a b)).y ≤
        ( size a).x * ( size a).y :=
      mul_le_mul la1 la2 p2.le (p1.le.trans la1)
    exact mul_le_mul hxy la3 p3.le
      (mul_nonneg (p1.le.trans la1) (p2.le.trans la2))
  · have hxy : ( size (intersect a b)).x * ( size (intersect a b)).y ≤
        ( size b).x * ( size b).y :=
      mul_le_mul lb1 lb2 p2.le (p1.le.trans lb1)
    exact mul_le_mul hxy lb3 p3.le
      (mul_nonneg (p1.le.trans lb1) (p2.le.trans lb2))

/-- C5: for every bounding box, including boxes constructed with min > max on
some axis, every component of `safe_size()` is ≥ 0. -/
theorem safe_size_nonneg :
    ∀ b : basic_aabb ℚ,
      0 ≤ ( safe_size b).x ∧ 0 ≤ ( safe_size b).y ∧ 0 ≤ ( safe_size b).z :=
  fun _ => ⟨le_max_left 0 _, le_max_left 0 _, le_max_left 0 _⟩

/-- C10: the free function `overlap_ratio` equals `overlap_ratio_min` on every
pair of boxes, and on the spec's concrete scenario it differs from
`overlap_ratio_union`, so it delegates to the min-denominator metric and not
to the union-denominator metric. -/
theorem overlap_ratio_delegates :
    (∀ a b : basic_aabb ℚ, overlap_ratio a b = overlap_ratio_min a b) ∧
    overlap_ratio boxA boxB ≠ overlap_ratio_union boxA boxB := by
  refine ⟨fun a b => rfl, ?_⟩
  norm_num [ overlap_ratio, overlap_ratio_min, overlap_ratio_union, empty, volume,
    size, intersect, combine, vmin, vmax, boxA, boxB]

/-- C2: `overlap_ratio_min` is 0 exactly when one of the boxes or the
intersection is empty and is the quotient of the intersection volume by the
smaller box volume otherwise; it always lies in [0,1]; and the spec's
concrete scenario computes as stated. -/
theorem overlap_ratio_min_spec :
    (∀ a b : basic_aabb ℚ,
      overlap_ratio_min a b =
        (if empty a ∨ empty b ∨ empty (intersect a b) then 0
         else volume (intersect a b) / min ( volume a) ( volume b)) ∧
      0 ≤ overlap_ratio_min a b ∧ overlap_ratio_min a b ≤ 1) ∧
    intersect boxA boxB = ⟨⟨1, 1, 1⟩, ⟨2, 2, 2⟩⟩ ∧
    volume (intersect boxA boxB) = 1 ∧
    combine boxA boxB = ⟨⟨0, 0, 0⟩, ⟨3, 3, 3⟩⟩ ∧
    volume (combine boxA boxB) = 27 ∧
    overlap_ratio_min boxA boxB = 1 / 8 := by
  refine ⟨fun a b => ⟨?_, ?_⟩, ?_, ?_, ?_, ?_, ?_⟩
  · by_cases h1 : empty a ∨ empty b <;>
      by_cases h2 : empty (intersect a b) <;>
        simp [ overlap_ratio_min, h1, h2]
  · by_cases h1 : empty a ∨ empty b
    · simp [ overlap_ratio_min, h1]
    · by_cases h2 : empty (intersect a b)
      · simp [ overlap_ratio_min, h1, h2]
      · push_neg at h1
        have hva := volume_pos_of_not_empty a h1.1
        have hvb := volume_pos_of_not_empty b h1.2
        have hvi := volume_pos_of_not_empty (intersect a b) h2
        have hle := volume_intersect_le a b h2
        have hmin : 0 < min ( volume a) ( volume b) := lt_min hva hvb
        have hq : overlap_ratio_min a b =
            volume (intersect a b) / min ( volume a) ( volume b) := by
          simp [ overlap_ratio_min, h1.1, h1.2, h2]
        rw [hq]
        exact ⟨div_nonneg hvi.le hmin.le,
          (div_le_one hmin).mpr (le_min hle.1 hle.2)⟩
  · norm_num [ intersect, vmin, vmax, boxA, boxB]
  · norm_num [ volume, size, intersect, vmin, vmax, boxA, boxB]
  · norm_num [ combine, vmin, vmax, boxA, boxB]
  · norm_num [ volume, size, combine, vmin, vmax, boxA, boxB]
  · norm_num [ overlap_ratio_min, empty, volume, size, intersect, vmin, vmax, boxA, boxB]

/-- C3: `invalidate()` produces the box with the greatest element (the +∞
sentinel) as every min component and the least element (the −∞ sentinel) as
every max component, and this box is the identity for union-style
reduction: combining it with any box b gives b, and inserting b into it
gives b. -/
theorem invalidate_identity :
    (∀ b0 : basic_aabb Qe,
      (invalidate b0).min = ⟨⊤, ⊤, ⊤⟩ ∧ (invalidate b0).max = ⟨⊥, ⊥, ⊥⟩) ∧
    (∀ (b0 b : basic_aabb Qe),
      combine (invalidate b0) b = b ∧ insert_aabb (invalidate b0) b = b) := by
  refine ⟨fun b0 => ⟨rfl, rfl⟩, fun b0 b => ?_⟩
  obtain ⟨⟨l1, l2, l3⟩, ⟨u1, u2, u3⟩⟩ := b
  constructor <;>
    simp [combine, insert_aabb, invalidate, vmin, vmax,
      numeric_limits_max, numeric_limits_lowest, Qe.min_top, Qe.max_bot]

/-- C4: inserting a point p into an invalidated box yields the box with
min = max = p, and that box is valid. -/
theorem invalidate_insert_point :
    ∀ (b0 : basic_aabb Qe) (p : vec3 Qe),
      ( insert (invalidate b0) p).min = p ∧
      ( insert (invalidate b0) p).max = p ∧
      valid ( insert (invalidate b0) p) := by
  intro b0 p
  obtain ⟨p1, p2, p3⟩ := p
  refine ⟨?_, ?_, ?_⟩ <;>
    simp [ insert, invalidate, valid, vmin, vmax,
      numeric_limits_max, numeric_limits_lowest, Qe.min_top, Qe.max_bot]

/-- C9: the intersector dispatch resolves in exactly one of two ways: a leaf
primitive goes to the free `intersect(ray, primitive)` with any extra
arguments dropped, and a hierarchy (BVH) primitive goes to
`intersect(ray, primitive, d)` where d is the dispatcher itself,
re-supplied as the continuation for recursive traversal. -/
theorem basic_intersector_dispatch :
    ∀ (R L B A H : Type) (ops : IntersectOps R L B A H) (fuel : Nat) (ray : R)
      (args : List A),
      (∀ p : L, basic_intersector ops fuel ray (Prim.leaf p) args =
        some (ops.intersect_prim ray p)) ∧
      (∀ b : B, basic_intersector ops (fuel + 1) ray (Prim.bvh b) args =
        some (ops.intersect_bvh ray b
          (fun r pr a => basic_intersector ops fuel r pr a))) := by
  intro R L B A H ops fuel ray args
  constructor
  · intro p
    cases fuel <;> rfl
  · intro b
    rfl

/-- C7: the triangle area operation is 0.5 times the length of the cross
product of the edge vectors, and for e1 = (1,0,0), e2 = (0,1,0) it is
exactly 0.5, hence within 1e-6 relative tolerance of 0.5. -/
theorem triangle_area_spec :
    (∀ t : basic_triangle, area t = (1 / 2 : ℝ) * length (cross t.e1 t.e2)) ∧
    area tri0 = 1 / 2 ∧
    |area tri0 - 1 / 2| ≤ (1 / 1000000 : ℝ) * (1 / 2) := by
  have hc : cross tri0.e1 tri0.e2 = ⟨0, 0, 1⟩ := by norm_num [cross, tri0]
  have hl : length (⟨0, 0, 1⟩ : vec3 ℚ) = 1 := by
    unfold length
    norm_num
  have ha : area tri0 = 1 / 2 := by
    unfold area
    rw [hc, hl]
    norm_num
  exact ⟨fun t => rfl, ha, by rw [ha]; norm_num⟩

/-- C6: splitting a box at a position p inside its extent on an axis yields
two boxes sharing the split plane on that axis, retaining the original
corners on the other axes, with non-negative sizes on the split axis that
sum to the original size on that axis. -/
theorem split_spec :
    ∀ (box : basic_aabb ℚ) (axis : cartesian_axis) (p : ℚ),
      geta box.min axis ≤ p → p ≤ geta box.max axis →
      (geta (split box axis p).1.max axis = p ∧
       geta (split box axis p).2.min axis = p) ∧
      (∀ ax2 : cartesian_axis, ax2 ≠ axis →
        geta (split box axis p).1.min ax2 = geta box.min ax2 ∧
        geta (split box axis p).1.max ax2 = geta box.max ax2 ∧
        geta (split box axis p).2.min ax2 = geta box.min ax2 ∧
        geta (split box axis p).2.max ax2 = geta box.max ax2) ∧
      (0 ≤ geta ( size (split box axis p).1) axis ∧
       0 ≤ geta ( size (split box axis p).2) axis ∧
       geta ( size (split box axis p).1) axis +
         geta ( size (split box axis p).2) axis = geta ( size box) axis) := by
  intro box axis p h1 h2
  refine ⟨?_, ?_, ?_⟩
  · cases axis <;> simp [split, seta, geta]
  · intro ax2 hne
    cases axis <;> cases ax2 <;> simp_all [split, seta, geta]
  · cases axis <;>
      (simp only [split, seta, geta, size];
       simp only [geta] at h1 h2;
       exact ⟨by linarith, by linarith, by ring⟩)

/-- C6 witness: the split property applied to the unit box on the x axis at
position 1/2. -/
theorem split_spec_w :
    geta boxCa.min cartesian_axis.X ≤ (1 / 2 : ℚ) ∧
    (1 / 2 : ℚ) ≤ geta boxCa.max cartesian_axis.X ∧
    ((geta (split boxCa cartesian_axis.X (1 / 2)).1.max cartesian_axis.X = 1 / 2 ∧
      geta (split boxCa cartesian_axis.X (1 / 2)).2.min cartesian_axis.X = 1 / 2) ∧
     (∀ ax2 : cartesian_axis, ax2 ≠ cartesian_axis.X →
       geta (split boxCa cartesian_axis.X (1 / 2)).1.min ax2 = geta boxCa.min ax2 ∧
       geta (split boxCa cartesian_axis.X (1 / 2)).1.max ax2 = geta boxCa.max ax2 ∧
       geta (split boxCa cartesian_axis.X (1 / 2)).2.min ax2 = geta boxCa.min ax2 ∧
       geta (split boxCa cartesian_axis.X (1 / 2)).2.max ax2 = geta boxCa.max ax2) ∧
     (0 ≤ geta ( size (split boxCa cartesian_axis.X (1 / 2)).1) cartesian_axis.X ∧
      0 ≤ geta ( size (split boxCa cartesian_axis.X (1 / 2)).2) cartesian_axis.X ∧
      geta ( size (split boxCa cartesian_axis.X (1 / 2)).1) cartesian_axis.X +
        geta ( size (split boxCa cartesian_axis.X (1 / 2)).2) cartesian_axis.X =
        geta ( size boxCa) cartesian_axis.X)) :=
  ⟨by norm_num [geta, boxCa], by norm_num [geta, boxCa],
   split_spec boxCa cartesian_axis.X (1 / 2)
     (by norm_num [geta, boxCa]) (by norm_num [geta, boxCa])⟩

/-- C1 counterexample: two valid but disjoint boxes whose intersection box
(an inverted box) is contained in neither, refuting the unconditional
containment of `intersect(a,b)` in a and in b for all valid boxes. -/
theorem intersect_not_contained_cex :
    valid boxCa ∧ valid boxCb ∧
    ¬ contains_aabb boxCa (intersect boxCa boxCb) ∧
    ¬ contains_aabb boxCb (intersect boxCa boxCb) := by
  norm_num [ valid, contains_aabb, contains, intersect, vmin, vmax, boxCa, boxCb]

/-- C1 (amended): for valid boxes a and b, `combine(a,b)` contains a and b;
and whenever `intersect(a,b)` is itself valid, it is contained in both a
and b. -/
theorem combine_intersect_containment :
    ∀ (a b : basic_aabb ℚ), valid a → valid b →
      contains_aabb (combine a b) a ∧ contains_aabb (combine a b) b ∧
      ( valid (intersect a b) →
        contains_aabb a (intersect a b) ∧ contains_aabb b (intersect a b)) := by
  intro a b ha hb
  obtain ⟨ha1, ha2, ha3⟩ := ha
  obtain ⟨hb1, hb2, hb3⟩ := hb
  simp only [contains_aabb, contains, combine, intersect, vmin, vmax, valid,
    ge_iff_le]
  refine ⟨?_, ?_, ?_⟩
  · exact ⟨⟨min_le_left _ _, le_max_of_le_left ha1, min_le_left _ _,
      le_max_of_le_left ha2, min_le_left _ _, le_max_of_le_left ha3⟩,
      ⟨min_le_of_left_le ha1, le_max_left _ _, min_le_of_left_le ha2,
      le_max_left _ _, min_le_of_left_le ha3, le_max_left _ _⟩⟩
  · exact ⟨⟨min_le_right _ _, le_max_of_le_right hb1, min_le_right _ _,
      le_max_of_le_right hb2, min_le_right _ _, le_max_of_le_right hb3⟩,
      ⟨min_le_of_right_le hb1, le_max_right _ _, min_le_of_right_le hb2,
      le_max_right _ _, min_le_of_right_le hb3, le_max_right _ _⟩⟩
  · intro hv
    obtain ⟨hv1, hv2, hv3⟩ := hv
    refine ⟨⟨⟨le_max_left _ _, hv1.trans (min_le_left _ _),
      le_max_left _ _, hv2.trans (min_le_left _ _),
      le_max_left _ _, hv3.trans (min_le_left _ _)⟩,
      ⟨(le_max_left _ _).trans hv1, min_le_left _ _,
      (le_max_left _ _).trans hv2, min_le_left _ _,
      (le_max_left _ _).trans hv3, min_le_left _ _⟩⟩,
      ⟨⟨le_max_right _ _, hv1.trans (min_le_right _ _),
      le_max_right _ _, hv2.trans (min_le_right _ _),
      le_max_right _ _, hv3.trans (min_le_right _ _)⟩,
      ⟨(le_max_right _ _).trans hv1, min_le_right _ _,
      (le_max_right _ _).trans hv2, min_le_right _ _,
      (le_max_right _ _).trans hv3, min_le_right _ _⟩⟩⟩

/-- C1 witness: the amended containment property applied to the two
overlapping valid boxes of the spec's concrete scenario. -/
theorem combine_intersect_containment_w :
    valid boxA ∧ valid boxB ∧
    (contains_aabb (combine boxA boxB) boxA ∧
     contains_aabb (combine boxA boxB) boxB ∧
     ( valid (intersect boxA boxB) →
       contains_aabb boxA (intersect boxA boxB) ∧
       contains_aabb boxB (intersect boxA boxB))) :=
  ⟨by norm_num [ valid, boxA], by norm_num [ valid, boxB],
   combine_intersect_containment boxA boxB
     (by norm_num [ valid, boxA]) (by norm_num [ valid, boxB])⟩

end Visionaray
